import Mathlib

/-!
A shallow embedding of the Gthulhu scheduler plugin repository: the `models`
task record, the `simple` policy (weighted virtual-time and FIFO modes,
`plugin/simple/simple.go`), the `gthulhu` deadline min-heap policy
(`plugin/gthulhu/gthulhu.go`) and the plugin registry
(`plugin/internal/registry`).

Go `uint64` arithmetic is modelled as `Nat` reduced modulo `2 ^ 64` at every
operation that can wrap in the source; a Go runtime panic (integer division
by zero) is modelled by returning `none`.  The external task source's
`DequeueTask` is modelled by a list of tasks: popping an empty list yields
the sentinel behaviour (`Pid = -1`), exactly as the source contract states.
-/

namespace Plugin

/-- The `uint64` modulus. -/
def U64 : Nat := 2 ^ 64

/-- Wrapping `uint64` subtraction `a - b` (for operands below `2 ^ 64`). -/
def u64sub (a b : Nat) : Nat := (a + U64 - b) % U64

/-- `models.QueuedTask`: the task record handed over by the kernel-side source. -/
structure QueuedTask where
  Pid : Int
  Cpu : Int
  NrCpusAllowed : Nat
  Flags : Nat
  StartTs : Nat
  StopTs : Nat
  SumExecRuntime : Nat
  Weight : Nat
  Vtime : Nat
  Tgid : Int
deriving Repr, DecidableEq

/-- The Go zero value of `models.QueuedTask`. -/
def zeroQueuedTask : QueuedTask :=
  { Pid := 0, Cpu := 0, NrCpusAllowed := 0, Flags := 0, StartTs := 0, StopTs := 0,
    SumExecRuntime := 0, Weight := 0, Vtime := 0, Tgid := 0 }

/-- The external `Sched` collaborator, reduced to the one method the policies
use besides `DequeueTask` (which is modelled as a task list): the default CPU
picker.  The Go `(error, int32)` pair is `Option String × Int` (with `none`
for a nil error). -/
structure Sched where
  defaultSelectCPU : QueuedTask → Option String × Int

/-- `util.SaturatingSub` (both policies carry an identical local copy). -/
def saturatingSub (a b : Nat) : Nat := if a > b then a - b else 0

namespace Simple

/-- `simple.Task`: a pool entry of the simple policy. -/
structure Task where
  queuedTask : QueuedTask
  vTime : Nat
  timestamp : Nat
deriving Repr, DecidableEq

/-- The state of `simple.SimplePlugin`. -/
structure SimplePlugin where
  fifoMode : Bool
  sliceDefault : Nat
  taskPool : List Task
  vtimeNow : Nat
  localQueueCount : Nat
  globalQueueCount : Nat
deriving Repr, DecidableEq

/-- The `sliceDefault` constant of `simple.go` (`5000 * 100`). -/
def sliceDefaultConst : Nat := 5000 * 100

/-- `simple.NewSimplePlugin`. -/
def NewSimplePlugin (fifoMode : Bool) : SimplePlugin :=
  { fifoMode := fifoMode, sliceDefault := sliceDefaultConst, taskPool := [],
    vtimeNow := 1, localQueueCount := 0, globalQueueCount := 0 }

/-- `simple.enqueueTask`: compute the pool entry for an admitted task. -/
def enqueueTask (s : SimplePlugin) (queuedTask : QueuedTask) : Task :=
  let vtime0 := queuedTask.Vtime
  let vtime1 :=
    if s.fifoMode = false ∧ vtime0 < saturatingSub s.vtimeNow s.sliceDefault then
      saturatingSub s.vtimeNow s.sliceDefault
    else vtime0
  let vtime2 := if vtime1 = 0 then 1 else vtime1
  { queuedTask := queuedTask, vTime := vtime2, timestamp := queuedTask.StartTs }

/-- `simple.lessTask`: strict priority order on pool entries. -/
def lessTask (a b : Task) : Bool :=
  if a.vTime ≠ b.vTime then decide (a.vTime < b.vTime)
  else if a.timestamp ≠ b.timestamp then decide (a.timestamp < b.timestamp)
  else decide (a.queuedTask.Pid < b.queuedTask.Pid)

/-- The weighted-arrangement pool invariant: no later resident entry strictly
precedes an earlier one in the `lessTask` order. -/
def poolSorted (pool : List Task) : Prop :=
  List.Pairwise (fun a b => lessTask b a = false) pool

/-- The ordered-insertion scan of `simple.insertTaskToPool` (weighted mode):
insert before the first resident entry that the new entry precedes. -/
def insertSorted (newTask : Task) : List Task → List Task
  | [] => [newTask]
  | t :: ts => if lessTask newTask t then newTask :: t :: ts else t :: insertSorted newTask ts

/-- `simple.insertTaskToPool`. -/
def insertTaskToPool (s : SimplePlugin) (newTask : Task) : SimplePlugin :=
  if s.fifoMode then { s with taskPool := s.taskPool ++ [newTask] }
  else { s with taskPool := insertSorted newTask s.taskPool }

/-- `simple.updateRunningTask`: advance the global clock on selection. -/
def updateRunningTask (s : SimplePlugin) (task : QueuedTask) : SimplePlugin :=
  let v := if s.vtimeNow < task.Vtime then task.Vtime else s.vtimeNow
  { s with vtimeNow := if v = 0 then 1 else v }

/-- `simple.getTaskFromPool`. -/
def getTaskFromPool (s : SimplePlugin) : Option QueuedTask × SimplePlugin :=
  match s.taskPool with
  | [] => (none, s)
  | task :: rest =>
    let s1 := { s with taskPool := rest }
    if s1.fifoMode then (some task.queuedTask, s1)
    else
      let selected :=
        if task.queuedTask.Vtime = 0 then { task.queuedTask with Vtime := 1 }
        else task.queuedTask
      (some selected, updateRunningTask s1 selected)

/-- The loop of `simple.DrainQueuedTask`, recursing over the task source;
`count` is the running total.  An exhausted source behaves as the sentinel
(`Pid = -1 ≤ 0`), so both exits return `count` with the state unchanged. -/
def drainAux (s : SimplePlugin) (count : Nat) : List QueuedTask → Nat × SimplePlugin
  | [] => (count, s)
  | q :: rest =>
    if q.Pid ≤ 0 then (count, s)
    else
      let task := enqueueTask s q
      let s1 := insertTaskToPool s task
      drainAux { s1 with globalQueueCount := s1.globalQueueCount + 1 } (count + 1) rest

/-- `simple.DrainQueuedTask`. -/
def DrainQueuedTask (s : SimplePlugin) (source : List QueuedTask) : Nat × SimplePlugin :=
  drainAux s 0 source

/-- `simple.SelectQueuedTask`. -/
def SelectQueuedTask (s : SimplePlugin) : Option QueuedTask × SimplePlugin :=
  getTaskFromPool s

/-- `simple.SelectCPU`: ignores the source and the task. -/
def SelectCPU (_s : SimplePlugin) (_sched : Sched) (_task : QueuedTask) : Option String × Int :=
  (none, Int.ofNat (1 <<< 20))

/-- `simple.DetermineTimeSlice`: always the configured default slice. -/
def DetermineTimeSlice (s : SimplePlugin) (_task : QueuedTask) : Nat :=
  s.sliceDefault

/-- `simple.GetPoolCount`. -/
def GetPoolCount (s : SimplePlugin) : Nat := s.taskPool.length

/-- `simple.updateStoppingTask`: charge the stopped task's execution time.
`none` models the Go division-by-zero panic when `Weight = 0` is reached. -/
def updateStoppingTask (s : SimplePlugin) (task : QueuedTask) (execTime : Nat) :
    Option QueuedTask :=
  if s.fifoMode then some task
  else if task.Weight = 0 then none
  else
    let v := (task.Vtime + execTime * 100 % U64 / task.Weight) % U64
    some { task with Vtime := if v = 0 then 1 else v }

/-- Pop `n` tasks through `SelectQueuedTask`, collecting the returned tasks. -/
def selectN : Nat → SimplePlugin → List QueuedTask × SimplePlugin
  | 0, s => ([], s)
  | n + 1, s =>
    match SelectQueuedTask s with
    | (none, s1) => ([], s1)
    | (some t, s1) =>
      let p := selectN n s1
      (t :: p.1, p.2)

/-- One externally driven operation on a simple-policy instance. -/
inductive SimpleOp where
  | drain (source : List QueuedTask) : SimpleOp
  | select : SimpleOp

/-- The state transition of one operation. -/
def simpleStep (s : SimplePlugin) : SimpleOp → SimplePlugin
  | .drain source => (DrainQueuedTask s source).2
  | .select => (SelectQueuedTask s).2

/-- Run a sequence of operations. -/
def simpleRun (s : SimplePlugin) (ops : List SimpleOp) : SimplePlugin :=
  ops.foldl simpleStep s

end Simple

namespace Gthulhu

/-- `gthulhu.SchedulingStrategy`: a per-task override. -/
structure SchedulingStrategy where
  priority : Bool
  executionTime : Nat
  pid : Int
deriving Repr, DecidableEq

/-- The strategy map `map[int32]SchedulingStrategy`, modelled as a lookup
function. -/
abbrev StrategyMap : Type := Int → Option SchedulingStrategy

/-- The empty strategy map (`make(map[int32]SchedulingStrategy)`). -/
def emptyStrategyMap : StrategyMap := fun _ => none

/-- `gthulhu.Task`: a pool entry of the deadline policy. -/
structure Task where
  queuedTask : QueuedTask
  deadline : Nat
  timestamp : Nat
deriving Repr, DecidableEq

/-- The Go zero value `Task{}` (used where the source reads a heap slot that
is outside the live prefix; the heap operations never do so on live data). -/
def defaultTask : Task :=
  { queuedTask := zeroQueuedTask, deadline := 0, timestamp := 0 }

/-- `gthulhu.taskPoolSize`. -/
def taskPoolSize : Nat := 4096

/-- The state of `gthulhu.GthulhuPlugin`.  `taskPool` is the live prefix
`taskPool[0 : taskPoolCount]` of the preallocated array, so the Go field
`taskPoolCount` is `taskPool.length`. -/
structure GthulhuPlugin where
  sliceNsDefault : Nat
  sliceNsMin : Nat
  taskPool : List Task
  minVruntime : Nat
  strategyMap : StrategyMap

/-- `gthulhu.NewGthulhuPlugin`. -/
def NewGthulhuPlugin (sliceNsDefault sliceNsMin : Nat) : GthulhuPlugin :=
  { sliceNsDefault := if sliceNsDefault > 0 then sliceNsDefault else 5000 * 1000,
    sliceNsMin := if sliceNsMin > 0 then sliceNsMin else 500 * 1000,
    taskPool := [], minVruntime := 0, strategyMap := emptyStrategyMap }

/-- `gthulhu.lessQueuedTask`: deadline, then admission timestamp, then pid. -/
def lessQueuedTask (a b : Task) : Bool :=
  if a.deadline ≠ b.deadline then decide (a.deadline < b.deadline)
  else if a.timestamp ≠ b.timestamp then decide (a.timestamp < b.timestamp)
  else decide (a.queuedTask.Pid < b.queuedTask.Pid)

/-- Read heap slot `i` (the live prefix of the array). -/
def heapGet (pool : List Task) (i : Nat) : Task := pool.getD i defaultTask

/-- The parallel assignment `pool[i], pool[j] = pool[j], pool[i]`. -/
def heapSwap (pool : List Task) (i j : Nat) : List Task :=
  (pool.set i (heapGet pool j)).set j (heapGet pool i)

/-- The loop body of `gthulhu.heapSiftUp`, with an explicit iteration bound
(`fuel`).  Each iteration moves from `idx` to `(idx - 1) / 2 ≤ idx - 1`, so
the invariant `idx ≤ fuel` holds throughout when started with `fuel = idx`;
at `fuel = 0` the index is 0 and the loop would exit anyway, so the bounded
loop computes exactly what the Go `for idx > 0` loop computes. -/
def heapSiftUpAux : Nat → List Task → Nat → List Task
  | 0, pool, _ => pool
  | fuel + 1, pool, idx =>
    if idx = 0 then pool
    else
      let parent := (idx - 1) / 2
      if lessQueuedTask (heapGet pool idx) (heapGet pool parent) then
        heapSiftUpAux fuel (heapSwap pool idx parent) parent
      else pool

/-- `gthulhu.heapSiftUp`: move the element at `idx` up while it precedes its
parent. -/
def heapSiftUp (pool : List Task) (idx : Nat) : List Task :=
  heapSiftUpAux idx pool idx

/-- The loop body of `gthulhu.heapSiftDown`, with an explicit iteration bound.
Each iteration moves from `idx` to `smallest ≥ idx + 1`, so the invariant
`n - idx ≤ fuel` holds throughout when started with `fuel = n - idx`; at
`fuel = 0` we have `n ≤ idx`, where the Go loop exits too (`left ≥ n`), so
the bounded loop computes exactly what the Go loop computes. -/
def heapSiftDownAux : Nat → List Task → Nat → Nat → List Task
  | 0, pool, _, _ => pool
  | fuel + 1, pool, n, idx =>
    if 2 * idx + 1 ≥ n then pool
    else
      let smallest :=
        if 2 * idx + 2 < n then
          if lessQueuedTask (heapGet pool (2 * idx + 2)) (heapGet pool (2 * idx + 1)) then
            2 * idx + 2
          else 2 * idx + 1
        else 2 * idx + 1
      if lessQueuedTask (heapGet pool smallest) (heapGet pool idx) then
        heapSiftDownAux fuel (heapSwap pool idx smallest) n smallest
      else pool

/-- `gthulhu.heapSiftDown` over the live region of size `n`: move the element
at `idx` down while a child precedes it (preferring the smaller child). -/
def heapSiftDown (pool : List Task) (n idx : Nat) : List Task :=
  heapSiftDownAux (n - idx) pool n idx

/-- `gthulhu.insertTaskToPool`: place the new entry at the end of the live
region and sift up; refuse when the pool is at `taskPoolSize - 1`. -/
def insertTaskToPool (g : GthulhuPlugin) (newTask : Task) : Bool × GthulhuPlugin :=
  if g.taskPool.length ≥ taskPoolSize - 1 then (false, g)
  else
    (true, { g with taskPool := heapSiftUp (g.taskPool ++ [newTask]) g.taskPool.length })

/-- `gthulhu.getTaskFromPool`: pop the heap root; move the last live element
to the root and sift down when elements remain. -/
def getTaskFromPool (g : GthulhuPlugin) : Option QueuedTask × GthulhuPlugin :=
  match g.taskPool with
  | [] => (none, g)
  | [top] => (some top.queuedTask, { g with taskPool := [] })
  | top :: r1 :: rest2 =>
    let rest := r1 :: rest2
    let pool1 := rest.getLastD defaultTask :: rest.dropLast
    (some top.queuedTask, { g with taskPool := heapSiftDown pool1 rest.length 0 })

/-- `gthulhu.applySchedulingStrategy`: consult the override map by `Tgid`;
a priority override forces `Vtime` to 0.  Returns the (possibly updated)
task and whether an override existed. -/
def applySchedulingStrategy (g : GthulhuPlugin) (task : QueuedTask) : QueuedTask × Bool :=
  match g.strategyMap task.Tgid with
  | some strategy =>
    (if strategy.priority then { task with Vtime := 0 } else task, true)
  | none => (task, false)

/-- The runtime charge `t.Vtime += (t.StopTs - t.StartTs) * t.Weight / 100`
with wrapping `uint64` arithmetic. -/
def chargeRuntime (v stopTs startTs weight : Nat) : Nat :=
  (v + u64sub stopTs startTs * weight % U64 / 100) % U64

/-- `gthulhu.updatedEnqueueTask`: apply an override or the default clamped
weighted-vtime computation; returns the updated task, the updated
`minVruntime`, and the function's return value (always 0), or `none` for the
division-by-zero panic when `Weight = 0` reaches the division. -/
def updatedEnqueueTask (g : GthulhuPlugin) (t : QueuedTask) :
    Option (QueuedTask × Nat × Nat) :=
  let p := applySchedulingStrategy g t
  if p.2 then some (p.1, g.minVruntime, 0)
  else
    let t1 := p.1
    let minV := if g.minVruntime < t1.Vtime then t1.Vtime else g.minVruntime
    let minVruntimeLocal := saturatingSub minV g.sliceNsDefault
    let v1opt : Option Nat :=
      if t1.Vtime = 0 then
        if t1.Weight = 0 then none
        else some ((minVruntimeLocal + g.sliceNsDefault * 100 % U64 / t1.Weight) % U64)
      else if t1.Vtime < minVruntimeLocal then some minVruntimeLocal
      else some t1.Vtime
    match v1opt with
    | none => none
    | some v1 =>
      some ({ t1 with Vtime := chargeRuntime v1 t1.StopTs t1.StartTs t1.Weight }, minV, 0)

/-- The loop of `gthulhu.drainQueuedTask`: stop with result 0 when the pool
reaches `taskPoolSize - 1`, stop with the running count at the sentinel
(`Pid = -1`, also produced by an exhausted source) or on a failed insertion;
otherwise admit the task and continue. -/
def drainAux : List QueuedTask → GthulhuPlugin → Nat → Option (Nat × GthulhuPlugin)
  | src, g, count =>
    if g.taskPool.length ≥ taskPoolSize - 1 then some (0, g)
    else
      match src with
      | [] => some (count, g)
      | q :: rest =>
        if q.Pid = -1 then some (count, g)
        else
          match updatedEnqueueTask g q with
          | none => none
          | some (q1, minV, dl) =>
            let g1 := { g with minVruntime := minV }
            let t : Task := { queuedTask := q1, deadline := dl, timestamp := q1.StartTs }
            let r := insertTaskToPool g1 t
            if r.1 then drainAux rest r.2 (count + 1)
            else some (count, r.2)

/-- `gthulhu.DrainQueuedTask`. -/
def DrainQueuedTask (g : GthulhuPlugin) (source : List QueuedTask) :
    Option (Nat × GthulhuPlugin) :=
  drainAux source g 0

/-- `gthulhu.SelectQueuedTask`. -/
def SelectQueuedTask (g : GthulhuPlugin) : Option QueuedTask × GthulhuPlugin :=
  getTaskFromPool g

/-- `gthulhu.SelectCPU`: delegate to the source's default CPU picker. -/
def SelectCPU (_g : GthulhuPlugin) (sched : Sched) (task : QueuedTask) : Option String × Int :=
  sched.defaultSelectCPU task

/-- `gthulhu.getTaskExecutionTime`: override slice by pid, else 0. -/
def getTaskExecutionTime (g : GthulhuPlugin) (pid : Int) : Nat :=
  match g.strategyMap pid with
  | some strategy => if strategy.executionTime > 0 then strategy.executionTime else 0
  | none => 0

/-- `gthulhu.DetermineTimeSlice`. -/
def DetermineTimeSlice (g : GthulhuPlugin) (task : QueuedTask) : Nat :=
  getTaskExecutionTime g task.Pid

/-- `gthulhu.GetPoolCount`. -/
def GetPoolCount (g : GthulhuPlugin) : Nat := g.taskPool.length

/-- Pop `n` tasks through `SelectQueuedTask`, collecting the returned tasks. -/
def selectN : Nat → GthulhuPlugin → List QueuedTask × GthulhuPlugin
  | 0, g => ([], g)
  | n + 1, g =>
    match SelectQueuedTask g with
    | (none, g1) => ([], g1)
    | (some t, g1) =>
      let p := selectN n g1
      (t :: p.1, p.2)

/-- Insert a list of pool entries in order through `insertTaskToPool`. -/
def insertAll (g : GthulhuPlugin) : List Task → GthulhuPlugin
  | [] => g
  | t :: ts => insertAll (insertTaskToPool g t).2 ts

/-- One externally driven operation on a gthulhu-policy instance. -/
inductive GthulhuOp where
  | drain (source : List QueuedTask) : GthulhuOp
  | select : GthulhuOp

/-- The state transition of one operation (`none` propagates a panic). -/
def gthulhuStep (g : GthulhuPlugin) : GthulhuOp → Option GthulhuPlugin
  | .drain source => (DrainQueuedTask g source).map (fun p => p.2)
  | .select => some (SelectQueuedTask g).2

/-- Run a sequence of operations. -/
def gthulhuRun : List GthulhuOp → GthulhuPlugin → Option GthulhuPlugin
  | [], g => some g
  | op :: ops, g =>
    match gthulhuStep g op with
    | none => none
    | some g1 => gthulhuRun ops g1

end Gthulhu

namespace Registry

/-- `registry.Scheduler`: the scheduler sub-configuration. -/
structure Scheduler where
  sliceNsDefault : Nat
  sliceNsMin : Nat
deriving Repr, DecidableEq

/-- `registry.SchedConfig` (the fields the registry itself reads). -/
structure SchedConfig where
  Mode : String
  scheduler : Scheduler
deriving Repr, DecidableEq

/-- `registry.PluginFactory`: a constructor from a configuration to a
scheduler instance or an error, for an arbitrary instance type `S`. -/
abbrev PluginFactory (S : Type) : Type := SchedConfig → Except String S

/-- The registry map `map[string]PluginFactory`, modelled as an association
list keyed by mode name (Go map keys are unique; registration refuses
duplicates, which keeps the association list duplicate-free). -/
abbrev RegistryMap (S : Type) : Type := List (String × PluginFactory S)

/-- `registry.RegisterNewPlugin`.  A nil Go factory is `none`. -/
def RegisterNewPlugin {S : Type} (regy : RegistryMap S) (mode : String)
    (factory : Option (PluginFactory S)) : Except String (RegistryMap S) :=
  if mode = "" then Except.error "plugin mode cannot be empty"
  else
    match factory with
    | none => Except.error "plugin factory cannot be nil"
    | some f =>
      if (List.lookup mode regy).isSome then
        Except.error "plugin mode is already registered"
      else Except.ok (regy ++ [(mode, f)])

/-- `registry.NewSchedulerPlugin`.  A nil Go config is `none`. -/
def NewSchedulerPlugin {S : Type} (regy : RegistryMap S) (config : Option SchedConfig) :
    Except String S :=
  match config with
  | none => Except.error "config cannot be nil"
  | some cfg =>
    match List.lookup cfg.Mode regy with
    | none => Except.error "unknown plugin mode"
    | some factory => factory cfg

/-- `registry.GetRegisteredModes`. -/
def GetRegisteredModes {S : Type} (regy : RegistryMap S) : List String :=
  regy.map Prod.fst

end Registry

/-! Concrete inputs used by the example theorems below. -/

/-- Build a concrete task record. -/
def mkTask (pid : Int) (vtime weight : Nat) (tgid : Int) (startTs stopTs : Nat) : QueuedTask :=
  { Pid := pid, Cpu := 0, NrCpusAllowed := 0, Flags := 0, StartTs := startTs, StopTs := stopTs,
    SumExecRuntime := 0, Weight := weight, Vtime := vtime, Tgid := tgid }

/-- A deadline-pool entry with the given priority key and admission
timestamp, for the spec's tie-break scenario. -/
def mkEntry (pid : Int) (deadline timestamp : Nat) : Gthulhu.Task :=
  { queuedTask := mkTask pid 0 100 pid 0 0, deadline := deadline, timestamp := timestamp }

/-- The deadline pool after admitting the spec's five tie-break tasks with
(key, timestamp) pairs (30,300), (10,200), (20,100), (10,150), (5,250) and
ids 1..5, in that order. -/
def c1State : Gthulhu.GthulhuPlugin :=
  Gthulhu.insertAll (Gthulhu.NewGthulhuPlugin 0 0)
    [mkEntry 1 30 300, mkEntry 2 10 200, mkEntry 3 20 100, mkEntry 4 10 150, mkEntry 5 5 250]

/-- A task with the non-positive pid 0 (not the sentinel -1). -/
def taskPidZero : QueuedTask := mkTask 0 0 100 0 0 0

/-- A well-formed task with pid 5 and Vtime 0. -/
def taskPidFive : QueuedTask := mkTask 5 0 100 5 0 0

/-- A task observed with Weight 0 (and Vtime 0, reaching both divisions). -/
def zeroWeightTask : QueuedTask := mkTask 5 0 0 5 0 0

/-- A task whose Vtime is at the top of the uint64 range. -/
def hugeVtimeTask : QueuedTask := mkTask 5 (2 ^ 64 - 1) 50 5 0 0

/-- An override with the priority flag off, for thread group 7. -/
def c10Strategy : Gthulhu.SchedulingStrategy :=
  { priority := false, executionTime := 0, pid := 7 }

/-- A strategy map holding only the thread-group-7 override. -/
def c10StrategyMap : Gthulhu.StrategyMap :=
  fun i => if i = 7 then some c10Strategy else none

/-- A deadline-policy instance carrying the thread-group-7 override. -/
def c10State : Gthulhu.GthulhuPlugin :=
  { Gthulhu.NewGthulhuPlugin 0 0 with strategyMap := c10StrategyMap }

/-- A task of thread group 7 with a nonzero Vtime. -/
def c10Task : QueuedTask := mkTask 9 1234 100 7 0 0

/-- A concrete plugin factory over the instance type Nat. -/
def regFactoryA : Registry.PluginFactory Nat := fun _ => Except.ok 1

/-- A second concrete plugin factory. -/
def regFactoryB : Registry.PluginFactory Nat := fun _ => Except.ok 2

/-- A concrete configuration selecting mode "simple". -/
def regConfig : Registry.SchedConfig :=
  { Mode := "simple", scheduler := { sliceNsDefault := 0, sliceNsMin := 0 } }

/-- An external source whose default CPU picker returns CPU 3. -/
def cpu3Sched : Sched := { defaultSelectCPU := fun _ => (none, 3) }

/-! The theorems.  Helper lemmas come first; the claim theorems, their
witnesses and the counterexamples follow. -/

/-- Swapping two heap slots preserves the pool length. -/
theorem heapSwap_length (pool : List Gthulhu.Task) (i j : Nat) :
    (Gthulhu.heapSwap pool i j).length = pool.length := by
  simp [Gthulhu.heapSwap]

/-- The sift-up loop preserves the pool length. -/
theorem heapSiftUpAux_length :
    ∀ (fuel : Nat) (pool : List Gthulhu.Task) (idx : Nat),
      (Gthulhu.heapSiftUpAux fuel pool idx).length = pool.length := by
  intro fuel
  induction fuel with
  | zero => intro pool idx; rfl
  | succ n ih =>
    intro pool idx
    rw [Gthulhu.heapSiftUpAux]
    split
    · rfl
    · dsimp only
      split
      · rw [ih, heapSwap_length]
      · rfl

/-- Inserting into a deadline pool below the capacity bound succeeds and adds
exactly one entry, leaving the clock untouched. -/
theorem gthulhu_insert_spec (g : Gthulhu.GthulhuPlugin) (t : Gthulhu.Task)
    (h : g.taskPool.length < Gthulhu.taskPoolSize - 1) :
    (Gthulhu.insertTaskToPool g t).1 = true ∧
    (Gthulhu.insertTaskToPool g t).2.taskPool.length = g.taskPool.length + 1 ∧
    (Gthulhu.insertTaskToPool g t).2.minVruntime = g.minVruntime := by
  rw [Gthulhu.insertTaskToPool, if_neg (by omega)]
  refine ⟨rfl, ?_, rfl⟩
  simp [Gthulhu.heapSiftUp, heapSiftUpAux_length]

/-- A failed insertion leaves the deadline pool state unchanged. -/
theorem gthulhu_insert_minV (g : Gthulhu.GthulhuPlugin) (t : Gthulhu.Task) :
    (Gthulhu.insertTaskToPool g t).2.minVruntime = g.minVruntime := by
  rw [Gthulhu.insertTaskToPool]
  split <;> rfl

/-- C2 counterexample: a task with the non-positive Pid 0 (not the sentinel) is
admitted by the deadline policy's drain: together with the following valid task
it enters the pool, the pool count becomes 2, the returned total is 2, and the
loop is not stopped. -/
theorem c2_counterexample :
    (Gthulhu.DrainQueuedTask (Gthulhu.NewGthulhuPlugin 0 0) [taskPidZero, taskPidFive]).map
      (fun p => (p.1, p.2.taskPool.map fun t => t.queuedTask.Pid)) = some (2, [0, 5]) := by
  decide

/-- C2 (amended): in the simple policy a task with non-positive Pid halts the
drain loop immediately: it is not admitted, the state (hence the pool count) is
unchanged, and the returned total is the count admitted before it.  In the
deadline (gthulhu) policy only the sentinel Pid = -1 halts the loop (leaving
the state unchanged); every other dequeued task, including those with
non-positive Pid, is admitted into the pool (one new entry) and counts toward
the total, and the loop continues. -/
theorem c2_invalid_pid_drain :
    (∀ (q : QueuedTask) (rest : List QueuedTask) (s : Simple.SimplePlugin) (c : Nat),
      q.Pid ≤ 0 → Simple.drainAux s c (q :: rest) = (c, s)) ∧
    (∀ (q : QueuedTask) (rest : List QueuedTask) (g : Gthulhu.GthulhuPlugin) (c : Nat),
      g.taskPool.length < Gthulhu.taskPoolSize - 1 → q.Pid = -1 →
      Gthulhu.drainAux (q :: rest) g c = some (c, g)) ∧
    (∀ (q : QueuedTask) (rest : List QueuedTask) (g : Gthulhu.GthulhuPlugin) (c : Nat)
        (q1 : QueuedTask) (minV dl : Nat),
      g.taskPool.length < Gthulhu.taskPoolSize - 1 → q.Pid ≠ -1 →
      Gthulhu.updatedEnqueueTask g q = some (q1, minV, dl) →
      Gthulhu.drainAux (q :: rest) g c =
        Gthulhu.drainAux rest
          (Gthulhu.insertTaskToPool { g with minVruntime := minV }
            { queuedTask := q1, deadline := dl, timestamp := q1.StartTs }).2 (c + 1) ∧
      (Gthulhu.insertTaskToPool { g with minVruntime := minV }
        { queuedTask := q1, deadline := dl, timestamp := q1.StartTs }).2.taskPool.length =
        g.taskPool.length + 1) := by
  refine ⟨?_, ?_, ?_⟩
  · intro q rest s c h
    rw [Simple.drainAux, if_pos h]
  · intro q rest g c hcap hpid
    rw [Gthulhu.drainAux]
    simp [Nat.not_le.mpr hcap, hpid]
  · intro q rest g c q1 minV dl hcap hpid hup
    have hins := gthulhu_insert_spec { g with minVruntime := minV }
      { queuedTask := q1, deadline := dl, timestamp := q1.StartTs } hcap
    constructor
    · rw [Gthulhu.drainAux]
      simp only [Nat.not_le.mpr hcap, ite_false, hup, hpid, if_neg]
      simp [hins.1]
    · exact hins.2.1

/-- C2 witness: concrete instances of all three drain behaviours. -/
theorem c2_invalid_pid_drain_witness :
    Simple.drainAux (Simple.NewSimplePlugin false) 0 [taskPidZero] =
      (0, Simple.NewSimplePlugin false) ∧
    Gthulhu.drainAux [mkTask (-1) 0 100 0 0 0] (Gthulhu.NewGthulhuPlugin 0 0) 0 =
      some (0, Gthulhu.NewGthulhuPlugin 0 0) ∧
    (Gthulhu.insertTaskToPool { Gthulhu.NewGthulhuPlugin 0 0 with minVruntime := 0 }
      { queuedTask := { taskPidZero with Vtime := 5000000 }, deadline := 0,
        timestamp := 0 }).2.taskPool.length = 1 :=
  ⟨c2_invalid_pid_drain.1 taskPidZero [] _ 0 (by decide),
   c2_invalid_pid_drain.2.1 _ [] _ 0 (by decide) (by decide),
   (c2_invalid_pid_drain.2.2 taskPidZero [] _ 0 { taskPidZero with Vtime := 5000000 } 0 0
     (by decide) (by decide) (by decide)).2⟩

/-- Every ordered insertion into a simple pool adds exactly one entry. -/
theorem insertSorted_length (t : Simple.Task) :
    ∀ pool, (Simple.insertSorted t pool).length = pool.length + 1 := by
  intro pool
  induction pool with
  | nil => rfl
  | cons x xs ih =>
    rw [Simple.insertSorted]
    split
    · rfl
    · simp only [List.length_cons, ih]

/-- Inserting into a simple pool (either mode) adds exactly one entry and
leaves the clock untouched. -/
theorem simple_insert_spec (s : Simple.SimplePlugin) (t : Simple.Task) :
    (Simple.insertTaskToPool s t).taskPool.length = s.taskPool.length + 1 ∧
    (Simple.insertTaskToPool s t).vtimeNow = s.vtimeNow ∧
    (Simple.insertTaskToPool s t).fifoMode = s.fifoMode := by
  rw [Simple.insertTaskToPool]
  split
  · simp
  · simp [insertSorted_length]

/-- The simple drain admits one pool entry per leading valid task and counts
each of them: on a source of n copies of a valid task it returns the prior
count plus n and grows the pool by n. -/
theorem simple_drainAux_replicate :
    ∀ (n : Nat) (q : QueuedTask) (s : Simple.SimplePlugin) (c : Nat), 0 < q.Pid →
      (Simple.drainAux s c (List.replicate n q)).1 = c + n ∧
      (Simple.drainAux s c (List.replicate n q)).2.taskPool.length =
        s.taskPool.length + n := by
  intro n
  induction n with
  | zero => intro q s c _; exact ⟨rfl, rfl⟩
  | succ m ih =>
    intro q s c hq
    rw [List.replicate_succ, Simple.drainAux, if_neg (by omega)]
    have h := ih q { Simple.insertTaskToPool s (Simple.enqueueTask s q) with
      globalQueueCount := (Simple.insertTaskToPool s (Simple.enqueueTask s q)).globalQueueCount + 1 }
      (c + 1) hq
    refine ⟨?_, ?_⟩
    · rw [h.1]; omega
    · rw [h.2]
      have := (simple_insert_spec s (Simple.enqueueTask s q)).1
      simp only [this]
      omega

/-- The deadline drain, started at or below the capacity bound, keeps the pool
at or below the bound, never shrinks it, and returns either the running count
plus the number of admissions or 0 with the pool exactly at the bound. -/
theorem gthulhu_drainAux_bound :
    ∀ (src : List QueuedTask) (g : Gthulhu.GthulhuPlugin) (c r : Nat)
      (g2 : Gthulhu.GthulhuPlugin),
      g.taskPool.length ≤ Gthulhu.taskPoolSize - 1 →
      Gthulhu.drainAux src g c = some (r, g2) →
      g.taskPool.length ≤ g2.taskPool.length ∧
      g2.taskPool.length ≤ Gthulhu.taskPoolSize - 1 ∧
      (r = c + (g2.taskPool.length - g.taskPool.length) ∨
        (r = 0 ∧ g2.taskPool.length = Gthulhu.taskPoolSize - 1)) := by
  intro src
  induction src with
  | nil =>
    intro g c r g2 hcap heq
    rw [Gthulhu.drainAux] at heq
    split at heq
    next hfull =>
      simp only [Option.some.injEq, Prod.mk.injEq] at heq
      obtain ⟨rfl, rfl⟩ := heq
      exact ⟨Nat.le_refl _, hcap, Or.inr ⟨rfl, by omega⟩⟩
    next hfull =>
      simp only [Option.some.injEq, Prod.mk.injEq] at heq
      obtain ⟨rfl, rfl⟩ := heq
      exact ⟨Nat.le_refl _, hcap, Or.inl (by omega)⟩
  | cons q rest ih =>
    intro g c r g2 hcap heq
    rw [Gthulhu.drainAux] at heq
    split at heq
    next hfull =>
      simp only [Option.some.injEq, Prod.mk.injEq] at heq
      obtain ⟨rfl, rfl⟩ := heq
      exact ⟨Nat.le_refl _, hcap, Or.inr ⟨rfl, by omega⟩⟩
    next hfull =>
      by_cases hpid : q.Pid = -1
      · rw [if_pos hpid] at heq
        simp only [Option.some.injEq, Prod.mk.injEq] at heq
        obtain ⟨rfl, rfl⟩ := heq
        exact ⟨Nat.le_refl _, hcap, Or.inl (by omega)⟩
      · rw [if_neg hpid] at heq
        cases hup : Gthulhu.updatedEnqueueTask g q with
        | none => rw [hup] at heq; cases heq
        | some trip =>
          obtain ⟨q1, minV, dl⟩ := trip
          rw [hup] at heq
          have hins := gthulhu_insert_spec { g with minVruntime := minV }
            { queuedTask := q1, deadline := dl, timestamp := q1.StartTs }
            (by dsimp only; omega)
          simp only [hins.1] at heq
          rw [if_pos trivial] at heq
          have hlen := hins.2.1
          dsimp only at hlen
          have hcap2 : (Gthulhu.insertTaskToPool { g with minVruntime := minV }
              { queuedTask := q1, deadline := dl,
                timestamp := q1.StartTs }).2.taskPool.length ≤
              Gthulhu.taskPoolSize - 1 := by omega
          have ihr := ih _ (c + 1) r g2 hcap2 heq
          rw [hlen] at ihr
          refine ⟨by omega, ihr.2.1, ?_⟩
          rcases ihr.2.2 with h | h
          · left; omega
          · right; exact h

/-- C3 counterexample: the simple policy has no capacity bound at all: a
single DrainQueuedTask call on a source of 4096 valid tasks grows the pool to
4096 entries, beyond the claimed bound of 4096 minus one. -/
theorem c3_counterexample :
    (Simple.DrainQueuedTask (Simple.NewSimplePlugin true)
      (List.replicate 4096 taskPidFive)).2.taskPool.length = 4096 ∧
    Gthulhu.taskPoolSize - 1 < 4096 := by
  constructor
  · have h := (simple_drainAux_replicate 4096 taskPidFive
      (Simple.NewSimplePlugin true) 0 (by decide)).2
    rw [Simple.DrainQueuedTask, h]
    rfl
  · decide

/-- C3 (amended): only the deadline (gthulhu) policy bounds its pool: its
drain never grows the pool beyond taskPoolSize - 1 = 4095 entries and stops
admission without error at the bound, but a call that stops because the bound
was reached returns 0 rather than the number admitted in that call (a call
that stops at the sentinel returns the running count plus the number of
admissions).  The simple policy admits without any capacity bound: a source of
n valid tasks always grows the pool by n and is counted in full. -/
theorem c3_capacity_bound :
    (∀ (src : List QueuedTask) (g : Gthulhu.GthulhuPlugin) (c r : Nat)
      (g2 : Gthulhu.GthulhuPlugin),
      g.taskPool.length ≤ Gthulhu.taskPoolSize - 1 →
      Gthulhu.drainAux src g c = some (r, g2) →
      g2.taskPool.length ≤ Gthulhu.taskPoolSize - 1 ∧
      (r = c + (g2.taskPool.length - g.taskPool.length) ∨
        (r = 0 ∧ g2.taskPool.length = Gthulhu.taskPoolSize - 1))) ∧
    (∀ (n : Nat) (q : QueuedTask) (s : Simple.SimplePlugin) (c : Nat), 0 < q.Pid →
      (Simple.drainAux s c (List.replicate n q)).1 = c + n ∧
      (Simple.drainAux s c (List.replicate n q)).2.taskPool.length =
        s.taskPool.length + n) := by
  constructor
  · intro src g c r g2 hcap heq
    have h := gthulhu_drainAux_bound src g c r g2 hcap heq
    exact ⟨h.2.1, h.2.2⟩
  · exact simple_drainAux_replicate

/-- C3 witness: an empty source leaves the empty deadline pool within the
bound with count 0, and a 2-task source grows the simple pool from 0 to 2
with count 2. -/
theorem c3_capacity_bound_witness :
    (Gthulhu.NewGthulhuPlugin 0 0).taskPool.length ≤ Gthulhu.taskPoolSize - 1 ∧
    ((0 : Nat) = 0 + ((Gthulhu.NewGthulhuPlugin 0 0).taskPool.length -
        (Gthulhu.NewGthulhuPlugin 0 0).taskPool.length) ∨
      ((0 : Nat) = 0 ∧
        (Gthulhu.NewGthulhuPlugin 0 0).taskPool.length = Gthulhu.taskPoolSize - 1)) ∧
    (Simple.drainAux (Simple.NewSimplePlugin true) 0 (List.replicate 2 taskPidFive)).1 =
      0 + 2 :=
  ⟨(c3_capacity_bound.1 [] (Gthulhu.NewGthulhuPlugin 0 0) 0 0
      (Gthulhu.NewGthulhuPlugin 0 0) (by decide) rfl).1,
   (c3_capacity_bound.1 [] (Gthulhu.NewGthulhuPlugin 0 0) 0 0
      (Gthulhu.NewGthulhuPlugin 0 0) (by decide) rfl).2,
   (c3_capacity_bound.2 2 taskPidFive (Simple.NewSimplePlugin true) 0 (by decide)).1⟩

/-- A simple drain never changes the clock. -/
theorem simple_drainAux_vtimeNow :
    ∀ (src : List QueuedTask) (s : Simple.SimplePlugin) (c : Nat),
      (Simple.drainAux s c src).2.vtimeNow = s.vtimeNow := by
  intro src
  induction src with
  | nil => intro s c; rfl
  | cons q rest ih =>
    intro s c
    rw [Simple.drainAux]
    split
    · rfl
    · rw [ih]
      dsimp only
      exact (simple_insert_spec s (Simple.enqueueTask s q)).2.1

/-- Advancing the clock when a task starts running never decreases it. -/
theorem updateRunningTask_vtimeNow_mono (s : Simple.SimplePlugin) (t : QueuedTask) :
    s.vtimeNow ≤ (Simple.updateRunningTask s t).vtimeNow := by
  rw [Simple.updateRunningTask]
  by_cases hlt : s.vtimeNow < t.Vtime <;> simp [hlt] <;> split <;> omega

/-- A simple selection never decreases the clock. -/
theorem simple_select_vtimeNow_mono (s : Simple.SimplePlugin) :
    s.vtimeNow ≤ (Simple.SelectQueuedTask s).2.vtimeNow := by
  rw [Simple.SelectQueuedTask, Simple.getTaskFromPool]
  split
  · exact Nat.le_refl _
  · dsimp only
    split
    · exact Nat.le_refl _
    · exact updateRunningTask_vtimeNow_mono _ _

/-- One simple operation never decreases the clock. -/
theorem simpleStep_vtimeNow_mono (s : Simple.SimplePlugin) (op : Simple.SimpleOp) :
    s.vtimeNow ≤ (Simple.simpleStep s op).vtimeNow := by
  cases op with
  | drain source =>
    rw [Simple.simpleStep, Simple.DrainQueuedTask, simple_drainAux_vtimeNow]
  | select => exact simple_select_vtimeNow_mono s

/-- The simple clock is non-decreasing along any operation sequence. -/
theorem simpleRun_vtimeNow_mono :
    ∀ (ops : List Simple.SimpleOp) (s : Simple.SimplePlugin),
      s.vtimeNow ≤ (Simple.simpleRun s ops).vtimeNow := by
  intro ops
  induction ops with
  | nil => intro s; exact Nat.le_refl _
  | cons op ops ih =>
    intro s
    exact Nat.le_trans (simpleStep_vtimeNow_mono s op) (ih (Simple.simpleStep s op))

/-- The deadline admission computation only moves the clock forward. -/
theorem gthulhu_updEnq_minV_mono (g : Gthulhu.GthulhuPlugin) (t q1 : QueuedTask)
    (minV dl : Nat) (h : Gthulhu.updatedEnqueueTask g t = some (q1, minV, dl)) :
    g.minVruntime ≤ minV := by
  rw [Gthulhu.updatedEnqueueTask] at h
  dsimp only at h
  split at h
  · simp only [Option.some.injEq, Prod.mk.injEq] at h
    exact Nat.le_of_eq h.2.1
  · split at h
    · exact Option.noConfusion h
    · simp only [Option.some.injEq, Prod.mk.injEq] at h
      obtain ⟨-, h2, -⟩ := h
      rw [← h2]
      split
      · omega
      · exact Nat.le_refl _

/-- The deadline drain only moves the clock forward. -/
theorem gthulhu_drainAux_minV_mono :
    ∀ (src : List QueuedTask) (g : Gthulhu.GthulhuPlugin) (c r : Nat)
      (g2 : Gthulhu.GthulhuPlugin),
      Gthulhu.drainAux src g c = some (r, g2) → g.minVruntime ≤ g2.minVruntime := by
  intro src
  induction src with
  | nil =>
    intro g c r g2 heq
    rw [Gthulhu.drainAux] at heq
    split at heq <;>
      (simp only [Option.some.injEq, Prod.mk.injEq] at heq
       obtain ⟨-, rfl⟩ := heq
       exact Nat.le_refl _)
  | cons q rest ih =>
    intro g c r g2 heq
    rw [Gthulhu.drainAux] at heq
    split at heq
    next =>
      simp only [Option.some.injEq, Prod.mk.injEq] at heq
      obtain ⟨-, rfl⟩ := heq
      exact Nat.le_refl _
    next =>
      by_cases hpid : q.Pid = -1
      · rw [if_pos hpid] at heq
        simp only [Option.some.injEq, Prod.mk.injEq] at heq
        obtain ⟨-, rfl⟩ := heq
        exact Nat.le_refl _
      · rw [if_neg hpid] at heq
        cases hup : Gthulhu.updatedEnqueueTask g q with
        | none => rw [hup] at heq; exact Option.noConfusion heq
        | some trip =>
          obtain ⟨q1, minV, dl⟩ := trip
          rw [hup] at heq
          dsimp only at heq
          have hminV := gthulhu_updEnq_minV_mono g q q1 minV dl hup
          have hpres := gthulhu_insert_minV { g with minVruntime := minV }
            { queuedTask := q1, deadline := dl, timestamp := q1.StartTs }
          dsimp only at hpres
          cases hok : (Gthulhu.insertTaskToPool { g with minVruntime := minV }
              { queuedTask := q1, deadline := dl, timestamp := q1.StartTs }).1 with
          | true =>
            rw [hok, if_pos rfl] at heq
            have hrec := ih _ (c + 1) r g2 heq
            rw [hpres] at hrec
            exact Nat.le_trans hminV hrec
          | false =>
            rw [hok, if_neg (by simp)] at heq
            simp only [Option.some.injEq, Prod.mk.injEq] at heq
            obtain ⟨-, rfl⟩ := heq
            rw [hpres]
            exact hminV

/-- A deadline selection leaves the clock untouched. -/
theorem gthulhu_select_minV (g : Gthulhu.GthulhuPlugin) :
    (Gthulhu.SelectQueuedTask g).2.minVruntime = g.minVruntime := by
  rw [Gthulhu.SelectQueuedTask, Gthulhu.getTaskFromPool]
  split <;> rfl

/-- The deadline clock is non-decreasing along any panic-free operation
sequence. -/
theorem gthulhuRun_minV_mono :
    ∀ (ops : List Gthulhu.GthulhuOp) (g g2 : Gthulhu.GthulhuPlugin),
      Gthulhu.gthulhuRun ops g = some g2 → g.minVruntime ≤ g2.minVruntime := by
  intro ops
  induction ops with
  | nil =>
    intro g g2 h
    rw [Gthulhu.gthulhuRun] at h
    cases h
    exact Nat.le_refl _
  | cons op ops ih =>
    intro g g2 h
    rw [Gthulhu.gthulhuRun] at h
    cases hstep : Gthulhu.gthulhuStep g op with
    | none => rw [hstep] at h; exact Option.noConfusion h
    | some g1 =>
      rw [hstep] at h
      refine Nat.le_trans ?_ (ih g1 g2 h)
      cases op with
      | drain source =>
        rw [Gthulhu.gthulhuStep, Gthulhu.DrainQueuedTask] at hstep
        cases hd : Gthulhu.drainAux source g 0 with
        | none => rw [hd] at hstep; exact Option.noConfusion hstep
        | some pr =>
          obtain ⟨r, gd⟩ := pr
          rw [hd] at hstep
          simp only [Option.map_some', Option.some.injEq] at hstep
          rw [← hstep]
          exact gthulhu_drainAux_minV_mono source g 0 r gd hd
      | select =>
        rw [Gthulhu.gthulhuStep] at hstep
        simp only [Option.some.injEq] at hstep
        rw [← hstep]
        exact Nat.le_of_eq (gthulhu_select_minV g).symm

/-- C5 counterexample: the deadline clock can be observed as zero after the
first selection: drain one Vtime-0 task into a fresh gthulhu instance, then
select it; the selection succeeds while minVruntime is still 0. -/
theorem c5_counterexample :
    (Gthulhu.DrainQueuedTask (Gthulhu.NewGthulhuPlugin 0 0) [taskPidFive]).map
      (fun p => ((Gthulhu.SelectQueuedTask p.2).1.isSome,
        (Gthulhu.SelectQueuedTask p.2).2.minVruntime)) = some (true, 0) := by
  decide

/-- C5 (amended): over every sequence of Drain and Select operations the
global fairness clock of a policy instance is non-decreasing (for gthulhu,
whenever the run completes without a panic), and the simple weighted-vtime
clock, which starts at 1, is never observed as zero at any point; the gthulhu
minVruntime, however, is advanced only at admission and can remain zero after
selections have occurred. -/
theorem c5_clock_monotone :
    (∀ (s : Simple.SimplePlugin) (ops : List Simple.SimpleOp),
      s.vtimeNow ≤ (Simple.simpleRun s ops).vtimeNow) ∧
    (∀ (b : Bool) (ops : List Simple.SimpleOp),
      1 ≤ (Simple.simpleRun (Simple.NewSimplePlugin b) ops).vtimeNow) ∧
    (∀ (ops : List Gthulhu.GthulhuOp) (g g2 : Gthulhu.GthulhuPlugin),
      Gthulhu.gthulhuRun ops g = some g2 → g.minVruntime ≤ g2.minVruntime) :=
  ⟨fun s ops => simpleRun_vtimeNow_mono ops s,
   fun b ops => simpleRun_vtimeNow_mono ops (Simple.NewSimplePlugin b),
   gthulhuRun_minV_mono⟩

/-- C5 witness: one concrete selection on a fresh simple instance keeps the
clock at least 1, and the empty gthulhu run keeps the clock. -/
theorem c5_clock_monotone_witness :
    (Simple.NewSimplePlugin false).vtimeNow ≤
      (Simple.simpleRun (Simple.NewSimplePlugin false) [Simple.SimpleOp.select]).vtimeNow ∧
    1 ≤ (Simple.simpleRun (Simple.NewSimplePlugin false) [Simple.SimpleOp.select]).vtimeNow ∧
    (Gthulhu.NewGthulhuPlugin 0 0).minVruntime ≤ (Gthulhu.NewGthulhuPlugin 0 0).minVruntime :=
  ⟨c5_clock_monotone.1 (Simple.NewSimplePlugin false) [Simple.SimpleOp.select],
   c5_clock_monotone.2.1 false [Simple.SimpleOp.select],
   c5_clock_monotone.2.2 [] (Gthulhu.NewGthulhuPlugin 0 0) (Gthulhu.NewGthulhuPlugin 0 0) rfl⟩

/-- Arithmetic characterisation of the simple strict priority order. -/
theorem lessTask_eq_true_iff (a b : Simple.Task) :
    Simple.lessTask a b = true ↔
      (a.vTime < b.vTime ∨ (a.vTime = b.vTime ∧ (a.timestamp < b.timestamp ∨
        (a.timestamp = b.timestamp ∧ a.queuedTask.Pid < b.queuedTask.Pid)))) := by
  rw [Simple.lessTask]
  by_cases h1 : a.vTime = b.vTime <;> by_cases h2 : a.timestamp = b.timestamp <;>
    simp [h1, h2]

/-- The simple strict priority order is irreflexive. -/
theorem lessTask_irrefl (a : Simple.Task) : Simple.lessTask a a = false := by
  rw [Bool.eq_false_iff]
  intro h
  rw [lessTask_eq_true_iff] at h
  omega

/-- The simple strict priority order is asymmetric. -/
theorem lessTask_asymm {a b : Simple.Task} (h : Simple.lessTask a b = true) :
    Simple.lessTask b a = false := by
  rw [Bool.eq_false_iff]
  intro hba
  rw [lessTask_eq_true_iff] at h hba
  omega

/-- An entry not preceding `t` does not precede anything that precedes `t`. -/
theorem lessTask_false_left {x newTask t : Simple.Task}
    (h1 : Simple.lessTask newTask t = true) (h2 : Simple.lessTask x t = false) :
    Simple.lessTask x newTask = false := by
  rw [Bool.eq_false_iff]
  intro hx
  rw [Bool.eq_false_iff] at h2
  apply h2
  rw [lessTask_eq_true_iff] at h1 hx ⊢
  omega

/-- Membership in an ordered insertion. -/
theorem mem_insertSorted {x newTask : Simple.Task} :
    ∀ {pool : List Simple.Task},
      x ∈ Simple.insertSorted newTask pool → x = newTask ∨ x ∈ pool := by
  intro pool
  induction pool with
  | nil =>
    intro h
    rw [Simple.insertSorted] at h
    exact Or.inl (List.mem_singleton.mp h)
  | cons t ts ih =>
    intro h
    rw [Simple.insertSorted] at h
    split at h
    · rcases List.mem_cons.mp h with h1 | h1
      · exact Or.inl h1
      · exact Or.inr h1
    · rcases List.mem_cons.mp h with h1 | h1
      · exact Or.inr (h1 ▸ List.mem_cons_self t ts)
      · rcases ih h1 with h2 | h2
        · exact Or.inl h2
        · exact Or.inr (List.mem_cons_of_mem t h2)

/-- Ordered insertion preserves the weighted pool invariant. -/
theorem insertSorted_sorted (newTask : Simple.Task) :
    ∀ pool : List Simple.Task, Simple.poolSorted pool →
      Simple.poolSorted (Simple.insertSorted newTask pool) := by
  intro pool
  induction pool with
  | nil =>
    intro _
    rw [Simple.insertSorted, Simple.poolSorted]
    exact List.pairwise_singleton _ _
  | cons t ts ih =>
    intro h
    rw [Simple.poolSorted, List.pairwise_cons] at h
    obtain ⟨ht, hts⟩ := h
    rw [Simple.insertSorted]
    split
    next hlt =>
      rw [Simple.poolSorted, List.pairwise_cons]
      refine ⟨?_, List.pairwise_cons.mpr ⟨ht, hts⟩⟩
      intro x hx
      rcases List.mem_cons.mp hx with h1 | h1
      · rw [h1]
        exact lessTask_asymm hlt
      · exact lessTask_false_left hlt (ht x h1)
    next hnlt =>
      rw [Simple.poolSorted, List.pairwise_cons]
      refine ⟨?_, ih hts⟩
      intro y hy
      rcases mem_insertSorted hy with h1 | h1
      · rw [h1]
        exact Bool.eq_false_iff.mpr hnlt
      · exact ht y h1

/-- Admission into a weighted pool preserves the pool invariant. -/
theorem simple_insert_sorted (s : Simple.SimplePlugin) (t : Simple.Task)
    (hf : s.fifoMode = false) (h : Simple.poolSorted s.taskPool) :
    Simple.poolSorted (Simple.insertTaskToPool s t).taskPool := by
  rw [Simple.insertTaskToPool, if_neg (by simp [hf])]
  exact insertSorted_sorted t s.taskPool h

/-- A weighted drain preserves the pool invariant. -/
theorem simple_drainAux_sorted :
    ∀ (src : List QueuedTask) (s : Simple.SimplePlugin) (c : Nat),
      s.fifoMode = false → Simple.poolSorted s.taskPool →
      Simple.poolSorted (Simple.drainAux s c src).2.taskPool := by
  intro src
  induction src with
  | nil => intro s c _ h; exact h
  | cons q rest ih =>
    intro s c hf h
    rw [Simple.drainAux]
    split
    · exact h
    · apply ih
      · have hmode := (simple_insert_spec s (Simple.enqueueTask s q)).2.2
        dsimp only
        rw [hmode]
        exact hf
      · dsimp only
        exact simple_insert_sorted s (Simple.enqueueTask s q) hf h

/-- On a sorted weighted pool, selection pops the head, which is minimal. -/
theorem simple_select_min (s : Simple.SimplePlugin) (t : Simple.Task)
    (rest : List Simple.Task) (hf : s.fifoMode = false) (hpool : s.taskPool = t :: rest)
    (hsort : Simple.poolSorted s.taskPool) :
    (Simple.SelectQueuedTask s).1 =
      some (if t.queuedTask.Vtime = 0 then { t.queuedTask with Vtime := 1 }
        else t.queuedTask) ∧
    (Simple.SelectQueuedTask s).2.taskPool = rest ∧
    (∀ x ∈ s.taskPool, Simple.lessTask x t = false) := by
  refine ⟨?_, ?_, ?_⟩
  · simp only [Simple.SelectQueuedTask, Simple.getTaskFromPool, hpool]
    simp [hf]
  · simp only [Simple.SelectQueuedTask, Simple.getTaskFromPool, hpool]
    simp only [hf]
    simp [Simple.updateRunningTask]
  · intro x hx
    rw [hpool] at hx
    rw [hpool, Simple.poolSorted, List.pairwise_cons] at hsort
    rcases List.mem_cons.mp hx with h1 | h1
    · rw [h1]
      exact lessTask_irrefl t
    · exact hsort.1 x h1

/-- In FIFO mode three tasks come back in arrival order whatever their
Vtime values. -/
theorem simple_fifo_three (A B C : QueuedTask) (hA : 0 < A.Pid) (hB : 0 < B.Pid)
    (hC : 0 < C.Pid) :
    (Simple.selectN 3
      (Simple.DrainQueuedTask (Simple.NewSimplePlugin true) [A, B, C]).2).1 =
      [A, B, C] := by
  have hA2 : ¬ A.Pid ≤ 0 := by omega
  have hB2 : ¬ B.Pid ≤ 0 := by omega
  have hC2 : ¬ C.Pid ≤ 0 := by omega
  simp [Simple.DrainQueuedTask, Simple.drainAux, hA2, hB2, hC2, Simple.insertTaskToPool,
    Simple.NewSimplePlugin, Simple.selectN, Simple.SelectQueuedTask, Simple.getTaskFromPool,
    Simple.enqueueTask]

/-- C4: in the weighted-vtime (simple) policy, admission keeps the pool sorted
(so every reachable pool is sorted), and on any sorted non-empty pool
SelectQueuedTask removes and returns the head entry, which is minimal by
priority key, then admission timestamp, then pid (no resident entry strictly
precedes it); in FIFO mode, tasks enqueued in order [A, B, C] are selected in
exactly that order regardless of their Vtime values. -/
theorem c4_simple_selection_order :
    (∀ (s : Simple.SimplePlugin) (t : Simple.Task), s.fifoMode = false →
      Simple.poolSorted s.taskPool →
      Simple.poolSorted (Simple.insertTaskToPool s t).taskPool) ∧
    (∀ (src : List QueuedTask) (s : Simple.SimplePlugin) (c : Nat),
      s.fifoMode = false → Simple.poolSorted s.taskPool →
      Simple.poolSorted (Simple.drainAux s c src).2.taskPool) ∧
    (∀ (s : Simple.SimplePlugin) (t : Simple.Task) (rest : List Simple.Task),
      s.fifoMode = false → s.taskPool = t :: rest → Simple.poolSorted s.taskPool →
      (Simple.SelectQueuedTask s).1 =
        some (if t.queuedTask.Vtime = 0 then { t.queuedTask with Vtime := 1 }
          else t.queuedTask) ∧
      (Simple.SelectQueuedTask s).2.taskPool = rest ∧
      (∀ x ∈ s.taskPool, Simple.lessTask x t = false)) ∧
    (∀ A B C : QueuedTask, 0 < A.Pid → 0 < B.Pid → 0 < C.Pid →
      (Simple.selectN 3
        (Simple.DrainQueuedTask (Simple.NewSimplePlugin true) [A, B, C]).2).1 =
        [A, B, C]) :=
  ⟨fun s t hf h => simple_insert_sorted s t hf h,
   fun src s c hf h => simple_drainAux_sorted src s c hf h,
   fun s t rest hf hpool hsort => simple_select_min s t rest hf hpool hsort,
   simple_fifo_three⟩

/-- C4 witness: concrete instances of all four selection-order facts. -/
theorem c4_simple_selection_order_witness :
    Simple.poolSorted (Simple.insertTaskToPool (Simple.NewSimplePlugin false)
      (Simple.enqueueTask (Simple.NewSimplePlugin false) taskPidFive)).taskPool ∧
    Simple.poolSorted
      (Simple.drainAux (Simple.NewSimplePlugin false) 0 [taskPidFive]).2.taskPool ∧
    (Simple.SelectQueuedTask (Simple.insertTaskToPool (Simple.NewSimplePlugin false)
      (Simple.enqueueTask (Simple.NewSimplePlugin false) taskPidFive))).2.taskPool = [] ∧
    (Simple.selectN 3 (Simple.DrainQueuedTask (Simple.NewSimplePlugin true)
      [taskPidFive, taskPidFive, taskPidFive]).2).1 =
      [taskPidFive, taskPidFive, taskPidFive] :=
  ⟨c4_simple_selection_order.1 (Simple.NewSimplePlugin false)
     (Simple.enqueueTask (Simple.NewSimplePlugin false) taskPidFive) rfl
     (by rw [Simple.poolSorted]; exact List.Pairwise.nil),
   c4_simple_selection_order.2.1 [taskPidFive] (Simple.NewSimplePlugin false) 0 rfl
     (by rw [Simple.poolSorted]; exact List.Pairwise.nil),
   (c4_simple_selection_order.2.2.1 (Simple.insertTaskToPool (Simple.NewSimplePlugin false)
       (Simple.enqueueTask (Simple.NewSimplePlugin false) taskPidFive))
     (Simple.enqueueTask (Simple.NewSimplePlugin false) taskPidFive) [] rfl (by decide)
     (by rw [Simple.poolSorted]; decide)).2.1,
   c4_simple_selection_order.2.2.2 taskPidFive taskPidFive taskPidFive (by decide)
     (by decide) (by decide)⟩

/-- Appending a fresh binding makes it the lookup result. -/
theorem lookup_append_of_none {S : Type} (regy : Registry.RegistryMap S) (mode : String)
    (f : Registry.PluginFactory S) (h : List.lookup mode regy = none) :
    List.lookup mode (regy ++ [(mode, f)]) = some f := by
  induction regy with
  | nil => simp [List.lookup]
  | cons kv rest ih =>
    obtain ⟨k, v⟩ := kv
    by_cases hk : mode = k
    · simp [List.lookup, hk] at h
    · rw [List.cons_append]
      rw [List.lookup] at h ⊢
      rw [show (mode == k) = false from beq_eq_false_iff_ne.mpr hk] at h ⊢
      exact ih h

/-- A name that is not registered occurs zero times among the modes. -/
theorem count_modes_of_lookup_none {S : Type} (regy : Registry.RegistryMap S)
    (mode : String) (h : List.lookup mode regy = none) :
    (Registry.GetRegisteredModes regy).count mode = 0 := by
  induction regy with
  | nil => rfl
  | cons kv rest ih =>
    obtain ⟨k, v⟩ := kv
    by_cases hk : mode = k
    · simp [List.lookup, hk] at h
    · rw [List.lookup] at h
      rw [show (mode == k) = false from beq_eq_false_iff_ne.mpr hk] at h
      have h0 := ih h
      rw [Registry.GetRegisteredModes] at h0 ⊢
      rw [List.map_cons, List.count_cons, h0]
      simp [hk]
      exact fun hx => hk hx.symm

/-- C9: registration fails exactly when the name is empty, the constructor is
nil, or the name is taken; a failed duplicate registration leaves the first
binding intact and the name listed exactly once; creation fails on a nil
config or an unknown mode and otherwise returns the registered constructor's
result unchanged. -/
theorem c9_registry_contract :
    (∀ (S : Type) (regy : Registry.RegistryMap S) (mode : String)
        (factory : Option (Registry.PluginFactory S)),
      (∃ e, Registry.RegisterNewPlugin regy mode factory = Except.error e) ↔
        (mode = "" ∨ factory = none ∨ (List.lookup mode regy).isSome = true)) ∧
    (∀ (S : Type) (regy regy2 : Registry.RegistryMap S) (mode : String)
        (f f2 : Registry.PluginFactory S),
      Registry.RegisterNewPlugin regy mode (some f) = Except.ok regy2 →
      (∃ e, Registry.RegisterNewPlugin regy2 mode (some f2) = Except.error e) ∧
      List.lookup mode regy2 = some f ∧
      (Registry.GetRegisteredModes regy2).count mode = 1) ∧
    (∀ (S : Type) (regy : Registry.RegistryMap S),
      (∃ e, Registry.NewSchedulerPlugin regy none = Except.error e) ∧
      (∀ cfg : Registry.SchedConfig,
        (List.lookup cfg.Mode regy = none →
          ∃ e, Registry.NewSchedulerPlugin regy (some cfg) = Except.error e) ∧
        (∀ fac, List.lookup cfg.Mode regy = some fac →
          Registry.NewSchedulerPlugin regy (some cfg) = fac cfg))) := by
  refine ⟨?_, ?_, ?_⟩
  · intro S regy mode factory
    by_cases h1 : mode = ""
    · constructor
      · intro _
        exact Or.inl h1
      · intro _
        exact ⟨"plugin mode cannot be empty", by rw [Registry.RegisterNewPlugin.eq_def, if_pos h1]⟩
    · cases factory with
      | none =>
        constructor
        · intro _
          exact Or.inr (Or.inl rfl)
        · intro _
          exact ⟨"plugin factory cannot be nil",
            by rw [Registry.RegisterNewPlugin.eq_def, if_neg h1]⟩
      | some f =>
        by_cases h3 : (List.lookup mode regy).isSome = true
        · constructor
          · intro _
            exact Or.inr (Or.inr h3)
          · intro _
            refine ⟨"plugin mode is already registered", ?_⟩
            rw [Registry.RegisterNewPlugin.eq_def, if_neg h1]
            dsimp only
            rw [if_pos h3]
        · constructor
          · rintro ⟨e, he⟩
            rw [Registry.RegisterNewPlugin.eq_def, if_neg h1] at he
            dsimp only at he
            rw [if_neg h3] at he
            exact Except.noConfusion he
          · intro h
            rcases h with h | h | h
            · exact absurd h h1
            · exact Option.noConfusion h
            · exact absurd h h3
  · intro S regy regy2 mode f f2 hok
    rw [Registry.RegisterNewPlugin.eq_def] at hok
    by_cases h1 : mode = ""
    · rw [if_pos h1] at hok
      exact Except.noConfusion hok
    rw [if_neg h1] at hok
    dsimp only at hok
    by_cases h3 : (List.lookup mode regy).isSome = true
    · rw [if_pos h3] at hok
      exact Except.noConfusion hok
    rw [if_neg h3] at hok
    have hreg : regy2 = regy ++ [(mode, f)] := by
      cases hok
      rfl
    subst hreg
    have hnone : List.lookup mode regy = none := by
      cases hl : List.lookup mode regy with
      | none => rfl
      | some v => rw [hl] at h3; simp at h3
    have hlook := lookup_append_of_none regy mode f hnone
    refine ⟨⟨"plugin mode is already registered", ?_⟩, hlook, ?_⟩
    · rw [Registry.RegisterNewPlugin.eq_def, if_neg h1]
      dsimp only
      rw [if_pos (by rw [hlook]; rfl)]
    · have h0 := count_modes_of_lookup_none regy mode hnone
      rw [Registry.GetRegisteredModes] at h0 ⊢
      rw [List.map_append, List.count_append, h0]
      simp [List.count_cons]
  · intro S regy
    refine ⟨⟨"config cannot be nil", rfl⟩, ?_⟩
    intro cfg
    constructor
    · intro hnone
      exact ⟨"unknown plugin mode", by simp [Registry.NewSchedulerPlugin, hnone]⟩
    · intro fac hfac
      simp [Registry.NewSchedulerPlugin, hfac]

/-- C9 witness: registering "simple" once in an empty registry, a duplicate
registration fails and leaves the binding intact and listed once, and creation
with the registered mode returns the constructor's result. -/
theorem c9_registry_contract_witness :
    (∃ e, Registry.RegisterNewPlugin [("simple", regFactoryA)] "simple"
      (some regFactoryB) = Except.error e) ∧
    List.lookup "simple" [("simple", regFactoryA)] = some regFactoryA ∧
    (Registry.GetRegisteredModes (S := Nat) [("simple", regFactoryA)]).count "simple" = 1 ∧
    Registry.NewSchedulerPlugin [("simple", regFactoryA)] (some regConfig) =
      regFactoryA regConfig :=
  ⟨(c9_registry_contract.2.1 Nat [] [("simple", regFactoryA)] "simple" regFactoryA
      regFactoryB rfl).1,
   (c9_registry_contract.2.1 Nat [] [("simple", regFactoryA)] "simple" regFactoryA
      regFactoryB rfl).2.1,
   (c9_registry_contract.2.1 Nat [] [("simple", regFactoryA)] "simple" regFactoryA
      regFactoryB rfl).2.2,
   ((c9_registry_contract.2.2 Nat [("simple", regFactoryA)]).2 regConfig).2
     regFactoryA rfl⟩

/-- C1: in the deadline (gthulhu) policy, successive SelectQueuedTask calls pop
the pool entries in order of the priority key ascending, breaking ties by
admission timestamp ascending and then task id ascending: for the five admitted
tasks of `c1State` with (key, timestamp) pairs (30,300), (10,200), (20,100),
(10,150), (5,250) and ids 1..5, the pop order is id 5 (key 5), then id 4
(key 10, timestamp 150), then id 2 (key 10, timestamp 200), then id 3 (key 20),
then id 1 (key 30), leaving the pool empty. -/
theorem c1_deadline_tiebreak_pop_order :
    ((Gthulhu.selectN 5 c1State).1.map fun t => t.Pid) = [5, 4, 2, 3, 1] ∧
    (Gthulhu.selectN 5 c1State).2.taskPool = [] := by
  decide

/-- C6 counterexample: the simple policy's SelectCPU does not return the
result of the source's DefaultSelectCPU: with a source whose picker returns
CPU 3, the simple policy returns CPU 1048576. -/
theorem c6_counterexample :
    Simple.SelectCPU (Simple.NewSimplePlugin false) cpu3Sched taskPidFive ≠
      cpu3Sched.defaultSelectCPU taskPidFive := by
  decide

/-- C6 (amended): the simple policy's SelectCPU ignores the source and always
succeeds (nil error) with the fixed CPU id 1 <<< 20; the gthulhu policy's
SelectCPU returns exactly the result of the source's DefaultSelectCPU. -/
theorem c6_selectcpu_delegation :
    (∀ (s : Simple.SimplePlugin) (sched : Sched) (t : QueuedTask),
      Simple.SelectCPU s sched t = (none, Int.ofNat (1 <<< 20))) ∧
    (∀ (g : Gthulhu.GthulhuPlugin) (sched : Sched) (t : QueuedTask),
      Gthulhu.SelectCPU g sched t = sched.defaultSelectCPU t) :=
  ⟨fun _ _ _ => rfl, fun _ _ _ => rfl⟩

/-- C10: in the deadline policy, an override for the admitted task's Tgid with
Priority = false leaves the task (in particular its Vtime field) and the global
clock exactly unchanged, skipping both the clamped weighted-vtime computation
and the (StopTs - StartTs) * Weight / 100 charge; an override with
Priority = true sets Vtime to 0 and changes nothing else. -/
theorem c10_override_framing :
    ∀ (g : Gthulhu.GthulhuPlugin) (t : QueuedTask) (strat : Gthulhu.SchedulingStrategy),
      g.strategyMap t.Tgid = some strat →
      (strat.priority = false →
        Gthulhu.updatedEnqueueTask g t = some (t, g.minVruntime, 0)) ∧
      (strat.priority = true →
        Gthulhu.updatedEnqueueTask g t = some ({ t with Vtime := 0 }, g.minVruntime, 0)) := by
  intro g t strat h
  constructor <;> intro hp <;>
    simp [Gthulhu.updatedEnqueueTask, Gthulhu.applySchedulingStrategy, h, hp]

/-- C10 witness: the thread-group-7 override with Priority = false leaves the
concrete task `c10Task` and the clock of `c10State` unchanged. -/
theorem c10_override_framing_witness :
    Gthulhu.updatedEnqueueTask c10State c10Task = some (c10Task, 0, 0) :=
  (c10_override_framing c10State c10Task c10Strategy (by decide)).1 (by decide)

/-- C7 counterexample: the weighted-vtime stopping charge wraps modulo 2^64,
so the post-charge key can be smaller than the pre-charge key: charging
execTime 1 to `hugeVtimeTask` (Vtime 2^64 - 1, Weight 50) yields Vtime 1. -/
theorem c7_counterexample :
    (Simple.updateStoppingTask (Simple.NewSimplePlugin false) hugeVtimeTask 1).map
        (fun t => t.Vtime) = some 1 ∧
    (1 : Nat) < hugeVtimeTask.Vtime := by
  decide

/-- C7 (amended): on a non-FIFO instance, for a task with nonzero Weight the
stopping accounting sets the key to (pre + execTime * 100 / Weight) mod 2^64
(uint64 arithmetic), coercing a zero result to 1; whenever that sum does not
overflow uint64, the resulting key is never smaller than the pre-charge key;
in FIFO mode the operation is a no-op. -/
theorem c7_stopping_charge :
    (∀ (s : Simple.SimplePlugin) (t : QueuedTask) (e : Nat),
      s.fifoMode = false → t.Weight ≠ 0 →
      Simple.updateStoppingTask s t e =
        some { t with Vtime :=
          if (t.Vtime + e * 100 % U64 / t.Weight) % U64 = 0 then 1
          else (t.Vtime + e * 100 % U64 / t.Weight) % U64 }) ∧
    (∀ (s : Simple.SimplePlugin) (t : QueuedTask) (e : Nat) (t2 : QueuedTask),
      s.fifoMode = false → t.Weight ≠ 0 →
      t.Vtime + e * 100 % U64 / t.Weight < U64 →
      Simple.updateStoppingTask s t e = some t2 → t.Vtime ≤ t2.Vtime) ∧
    (∀ (s : Simple.SimplePlugin) (t : QueuedTask) (e : Nat),
      s.fifoMode = true → Simple.updateStoppingTask s t e = some t) := by
  refine ⟨?_, ?_, ?_⟩
  · intro s t e hf hw
    simp [Simple.updateStoppingTask, hf, hw]
  · intro s t e t2 hf hw hlt heq
    simp [Simple.updateStoppingTask, hf, hw] at heq
    rw [Nat.mod_eq_of_lt hlt] at heq
    subst heq
    dsimp only
    split
    next h =>
      rw [Nat.eq_zero_of_add_eq_zero_right h]
      exact Nat.zero_le 1
    next _ => exact Nat.le_add_right _ _
  · intro s t e hf
    simp [Simple.updateStoppingTask, hf]

/-- C7 witness: charging execTime 100 to a Weight-100, Vtime-0 task on a
weighted instance yields key 100 (not smaller than the pre-charge key 0), and
the FIFO instance leaves the task untouched. -/
theorem c7_stopping_charge_witness :
    Simple.updateStoppingTask (Simple.NewSimplePlugin false) taskPidFive 100 =
      some { taskPidFive with Vtime := 100 } ∧
    taskPidFive.Vtime ≤ 100 ∧
    Simple.updateStoppingTask (Simple.NewSimplePlugin true) taskPidFive 100 =
      some taskPidFive :=
  ⟨c7_stopping_charge.1 (Simple.NewSimplePlugin false) taskPidFive 100 rfl (by decide),
   c7_stopping_charge.2.1 (Simple.NewSimplePlugin false) taskPidFive 100
     { taskPidFive with Vtime := 100 } rfl (by decide) (by decide) (by decide),
   c7_stopping_charge.2.2 (Simple.NewSimplePlugin true) taskPidFive 100 rfl⟩

/-- C8 counterexample: the fairness divisions are not guarded: a task with
Weight = 0 reaches the division and panics (modelled as none) both in the
weighted-vtime stopping accounting and in the deadline admission-key
computation. -/
theorem c8_counterexample :
    Simple.updateStoppingTask (Simple.NewSimplePlugin false) zeroWeightTask 1 = none ∧
    Gthulhu.updatedEnqueueTask (Gthulhu.NewGthulhuPlugin 0 0) zeroWeightTask = none := by
  decide

/-- C8 (amended): the divisions by Weight are unguarded: on a non-FIFO simple
instance a Weight-0 task panics in updateStoppingTask, and in the deadline
policy a Weight-0 task with Vtime 0 and no override panics in
updatedEnqueueTask; for every task with nonzero Weight neither operation
divides by zero (both complete). -/
theorem c8_division_unguarded :
    (∀ (s : Simple.SimplePlugin) (t : QueuedTask) (e : Nat),
      s.fifoMode = false → t.Weight = 0 → Simple.updateStoppingTask s t e = none) ∧
    (∀ (s : Simple.SimplePlugin) (t : QueuedTask) (e : Nat),
      t.Weight ≠ 0 → (Simple.updateStoppingTask s t e).isSome = true) ∧
    (∀ (g : Gthulhu.GthulhuPlugin) (t : QueuedTask),
      g.strategyMap t.Tgid = none → t.Vtime = 0 → t.Weight = 0 →
      Gthulhu.updatedEnqueueTask g t = none) ∧
    (∀ (g : Gthulhu.GthulhuPlugin) (t : QueuedTask),
      t.Weight ≠ 0 → (Gthulhu.updatedEnqueueTask g t).isSome = true) := by
  refine ⟨?_, ?_, ?_, ?_⟩
  · intro s t e hf hw
    simp [Simple.updateStoppingTask, hf, hw]
  · intro s t e hw
    by_cases hf : s.fifoMode <;> simp [Simple.updateStoppingTask, hf, hw]
  · intro g t hmap hv hw
    simp [Gthulhu.updatedEnqueueTask, Gthulhu.applySchedulingStrategy, hmap, hv, hw]
  · intro g t hw
    cases hmap : g.strategyMap t.Tgid with
    | some strat =>
      simp [Gthulhu.updatedEnqueueTask, Gthulhu.applySchedulingStrategy, hmap]
    | none =>
      by_cases hv : t.Vtime = 0
      · simp [Gthulhu.updatedEnqueueTask, Gthulhu.applySchedulingStrategy, hmap, hv, hw]
      · by_cases hvlt : t.Vtime <
            saturatingSub (if g.minVruntime < t.Vtime then t.Vtime else g.minVruntime)
              g.sliceNsDefault <;>
          simp [Gthulhu.updatedEnqueueTask, Gthulhu.applySchedulingStrategy, hmap, hv, hvlt]

/-- C8 witness: a Weight-0 task panics in both places, and the Weight-100 task
`taskPidFive` completes in both places. -/
theorem c8_division_unguarded_witness :
    Simple.updateStoppingTask (Simple.NewSimplePlugin false) zeroWeightTask 7 = none ∧
    (Simple.updateStoppingTask (Simple.NewSimplePlugin false) taskPidFive 7).isSome = true ∧
    Gthulhu.updatedEnqueueTask (Gthulhu.NewGthulhuPlugin 0 0) zeroWeightTask = none ∧
    (Gthulhu.updatedEnqueueTask (Gthulhu.NewGthulhuPlugin 0 0) taskPidFive).isSome = true :=
  ⟨c8_division_unguarded.1 (Simple.NewSimplePlugin false) zeroWeightTask 7 rfl (by decide),
   c8_division_unguarded.2.1 (Simple.NewSimplePlugin false) taskPidFive 7 (by decide),
   c8_division_unguarded.2.2.1 (Gthulhu.NewGthulhuPlugin 0 0) zeroWeightTask (by decide)
     (by decide) (by decide),
   c8_division_unguarded.2.2.2 (Gthulhu.NewGthulhuPlugin 0 0) taskPidFive (by decide)⟩

end Plugin
